import Mathlib

/-!
Verification of the StarkChrome local event-aggregation and digest engine.

This file gives a shallow embedding, in Lean 4, of the parts of the
StarkChrome Chrome extension that the verified properties talk about:

* the Privacy Filter (`background/privacy.js`): `sanitizeUrl`, `getDomain`,
  parameterised over an abstract URL parser standing for the platform
  `new URL(...)` constructor (`none` models the constructor throwing);
* the Event Store (`background/store.js`): `recordEvent`,
  `enforceRetention`, `persistStore` (with its quota-recovery path),
  `getEventsForDay`, `addPageContent`, `getPageContent`, `clearStore`;
* the Session Tracker (`background/tracker.js`): session close-out with
  dwell-time clamping (`trackPageChange` / `trackIdle`), the per-domain
  dwell accumulator (`accumulateTime`), and the per-process content
  extraction dedup (`extractAndLog`);
* the Digest Builder (`background/digest.js`): `buildAndSendDigest` with
  its already-sent guard, zero-events short circuit, and the
  marker-update / accumulator-reset condition, plus the manual
  `sendDigestNow` entry point of `background/service-worker.js`.

Timestamps are modelled as natural numbers (milliseconds).  JavaScript
`Math.min(now - start, M)` on a possibly negative difference behaves, for
everything observable here, like truncated natural subtraction followed by
`min`, because a negative duration fails every `>= threshold` test exactly
as `0` does.  Effects on `chrome.storage.local` are modelled by explicit
state values, and the outbound delivery collaborators (webhook, logger)
by their returned result values.
-/

set_option maxRecDepth 100000

namespace StarkChrome

/-! ## Privacy Filter — background/privacy.js -/

/-- Components of a successfully parsed URL, as used by `sanitizeUrl` and
`getDomain` (origin, pathname, hostname, and the query parameters as an
association list).  The platform URL parser itself is external; it is
passed in as a function `String → Option UrlParts`, `none` standing for
the `new URL(url)` constructor throwing. -/
structure UrlParts where
  origin : String
  pathname : String
  hostname : String
  searchParams : List (String × String)
deriving Repr, DecidableEq

/-- Query parameters kept by sanitization (privacy.js line 68). -/
def keepParams : List String := ["q", "query", "search", "search_query", "tbm", "type"]

/-- Lookup of a query parameter, modelling `u.searchParams.get(key)`. -/
def lookupParam (ps : List (String × String)) (k : String) : Option String :=
  (ps.find? (fun p => p.1 = k)).map (fun p => p.2)

/-- Embedding of `sanitizeUrl` (privacy.js lines 61-80): empty input maps to
the empty string; a parsed URL keeps origin and pathname plus only the
`keepParams` query parameters; on parse failure the `catch` branch returns
the raw input unchanged (line 78: `return url`). -/
def sanitizeUrl (parse : String → Option UrlParts) (url : String) : String :=
  if url = "" then ""
  else
    match parse url with
    | some u =>
      let kept := keepParams.foldl
        (fun acc k =>
          match lookupParam u.searchParams k with
          | some v => acc ++ [(k, v)]
          | none => acc) []
      let cleanSearch := String.intercalate "&" (kept.map (fun p => p.1 ++ "=" ++ p.2))
      u.origin ++ u.pathname ++ (if cleanSearch = "" then "" else "?" ++ cleanSearch)
    | none => url

/-- Embedding of `getDomain` (privacy.js lines 83-89): hostname of the
parsed URL, or the empty string when parsing fails. -/
def getDomain (parse : String → Option UrlParts) (url : String) : String :=
  match parse url with
  | some u => u.hostname
  | none => ""

/-- A URL parser instance on which parsing always fails, standing for the
platform URL constructor restricted to inputs on which it throws (for
example `new URL("::bad?token=secret")`). -/
def parseFail : String → Option UrlParts := fun _ => none

/-! ## Event Store — background/store.js -/

/-- A stored event (store.js lines 279-287).  The type-specific compacted
payload (`compactData`) carries no information used by the verified
properties and is omitted. -/
structure StoredEvent where
  t : Nat
  type : String
  url : String
  domain : String
  cat : String
  title : String
deriving Repr, DecidableEq

/-- Store metadata bookkeeping (store.js line 261). -/
structure StoreMeta where
  totalEvents : Nat
  oldestEvent : Option Nat
  newestEvent : Option Nat
deriving Repr, DecidableEq

/-- Embedding of `recordEvent` (store.js lines 278-300): builds the entry
with sanitized url, derived domain and category, truncated title, appends
it to the log and updates the metadata.  The Categorizer is an external
collaborator and is passed in as a function. -/
def recordEvent (parse : String → Option UrlParts) (categorize : String → String)
    (now : Nat) (evType evUrl evTitle : String)
    (log : List StoredEvent) (meta : StoreMeta) : List StoredEvent × StoreMeta :=
  let entry : StoredEvent :=
    { t := now
      type := evType
      url := sanitizeUrl parse evUrl
      domain := getDomain parse evUrl
      cat := categorize (getDomain parse evUrl)
      title := evTitle.take 200 }
  (log ++ [entry],
   { totalEvents := meta.totalEvents + 1
     newestEvent := some entry.t
     oldestEvent := some (meta.oldestEvent.getD entry.t) })

/-- Retention window in days (store.js line 257). -/
def DEFAULT_RETENTION_DAYS : Nat := 90

/-- The retention cutoff `Date.now() - DEFAULT_RETENTION_DAYS * 24*60*60*1000`
(store.js line 347), with truncated natural subtraction. -/
def retentionCutoff (now : Nat) : Nat :=
  now - DEFAULT_RETENTION_DAYS * 24 * 60 * 60 * 1000

/-- Embedding of `enforceRetention` (store.js lines 346-354): keeps exactly
the events with `e.t > cutoff` and, when something was pruned, refreshes the
oldest-event bookkeeping from the head of the retained log. -/
def enforceRetention (now : Nat) (log : List StoredEvent) (meta : StoreMeta) :
    List StoredEvent × StoreMeta :=
  let cutoff := retentionCutoff now
  let kept := log.filter (fun e => decide (cutoff < e.t))
  if kept.length < log.length then
    (kept, { meta with oldestEvent := kept.head?.map (fun e => e.t) })
  else
    (kept, meta)

/-- Embedding of `getEventsForDay` (store.js lines 366-371) with the start
of the local calendar day passed in as a millisecond timestamp. -/
def getEventsForDay (dayStart : Nat) (log : List StoredEvent) : List StoredEvent :=
  log.filter (fun e => decide (dayStart ≤ e.t ∧ e.t < dayStart + 24 * 60 * 60 * 1000))

/-- Outcome of one `chrome.storage.local.set` attempt: success, a rejection
whose error message contains "QUOTA", or any other rejection. -/
inductive SetOutcome where
  | ok
  | quotaError
  | otherError
deriving Repr, DecidableEq

/-- JavaScript `array.slice(-n)`: the suffix of the most recent `n` entries
(the whole array when it is shorter than `n`). -/
def jsSliceLast (n : Nat) (l : List StoredEvent) : List StoredEvent :=
  l.drop (l.length - n)

/-- Result of a `persistStore` call: the in-memory log and metadata after
the call, what (if anything) ended up written to durable storage, and
whether an exception escaped to the caller. -/
structure PersistResult where
  memLog : List StoredEvent
  memMeta : StoreMeta
  written : Option (List StoredEvent)
  threw : Bool
deriving Repr, DecidableEq

/-- Embedding of `persistStore` (store.js lines 328-343): retention runs
first, then the write is attempted; a quota rejection truncates the
in-memory log to `slice(-1000)` and retries the write exactly once (a
failure of the retry escapes); any other rejection is swallowed without a
write.  The fallibility of `chrome.storage.local.set` is modelled by the
function `set` giving the outcome of writing a given log. -/
def persistStore (set : List StoredEvent → SetOutcome)
    (log : List StoredEvent) (meta : StoreMeta) (now : Nat) : PersistResult :=
  let r := enforceRetention now log meta
  match set r.1 with
  | .ok => { memLog := r.1, memMeta := r.2, written := some r.1, threw := false }
  | .quotaError =>
    let trimmed := jsSliceLast 1000 r.1
    match set trimmed with
    | .ok => { memLog := trimmed, memMeta := r.2, written := some trimmed, threw := false }
    | _ => { memLog := trimmed, memMeta := r.2, written := none, threw := true }
  | .otherError => { memLog := r.1, memMeta := r.2, written := none, threw := false }

/-! ## Page-content side table — background/store.js lines 409-435 -/

/-- An extracted page-content entry for one day (store.js lines 88-95 of
tracker.js build the literal stored by `addPageContent`). -/
structure PageEntry where
  url : String
  title : String
  timeSpent : Nat
  content : String
  timestamp : Nat
deriving Repr, DecidableEq

/-- The dedup step of `addPageContent` (store.js lines 413-421):
`findIndex` locates the first entry with the same url; it is overwritten
only when the incoming entry spent strictly more time, and otherwise the
list is unchanged; when no entry matches, the incoming entry is pushed at
the end. -/
def dedupByUrl (entry : PageEntry) : List PageEntry → List PageEntry
  | [] => [entry]
  | e :: rest =>
    if e.url = entry.url then
      (if e.timeSpent < entry.timeSpent then entry :: rest else e :: rest)
    else
      e :: dedupByUrl entry rest

/-- Stable insertion into a list sorted by `timeSpent` descending,
matching the stable `existing.sort((a, b) => b.timeSpent - a.timeSpent)`
of store.js line 424: an element moves ahead only of entries with strictly
smaller `timeSpent`. -/
def insertByTime (x : PageEntry) : List PageEntry → List PageEntry
  | [] => [x]
  | y :: ys =>
    if y.timeSpent < x.timeSpent then x :: y :: ys else y :: insertByTime x ys

/-- The sort of store.js line 424 as a stable insertion sort by
`timeSpent` descending. -/
def sortByTimeDesc (l : List PageEntry) : List PageEntry :=
  l.foldr insertByTime []

/-- Embedding of `addPageContent` (store.js lines 409-429) acting on the
existing list stored under the calendar-day key: dedup by url, sort by
`timeSpent` descending, keep the top 50 (line 425: `slice(0, 50)`). -/
def addPageContent (existing : List PageEntry) (entry : PageEntry) : List PageEntry :=
  (sortByTimeDesc (dedupByUrl entry existing)).take 50

/-! ## Durable storage layout and clearStore -/

/-- The slices of `chrome.storage.local` that the Event Store touches:
the event-log blob (key `eventLog`), the metadata blob (key `storeMeta`),
and one page-content blob per calendar day (keys `content_YYYY-MM-DD`,
store.js line 410). -/
structure LocalData where
  storedLog : Option (List StoredEvent)
  storedMeta : Option StoreMeta
  contentByDay : List (String × List PageEntry)
deriving Repr, DecidableEq

/-- Embedding of `getPageContent` (store.js lines 432-435): the blob under
key `content_<date>`, or the empty list. -/
def getPageContent (d : LocalData) (date : String) : List PageEntry :=
  ((d.contentByDay.find? (fun p => p.1 = "content_" ++ date)).map (fun p => p.2)).getD []

/-- Embedding of `clearStore` (store.js lines 450-454): the in-memory log
and metadata are reset and `chrome.storage.local.remove([STORE_KEY,
META_KEY])` deletes the event-log and metadata blobs; no other storage key
is touched. -/
def clearStore (d : LocalData) : (List StoredEvent × StoreMeta) × LocalData :=
  (([], { totalEvents := 0, oldestEvent := none, newestEvent := none }),
   { d with storedLog := none, storedMeta := none })

/-! ## Session Tracker — background/tracker.js -/

/-- Threshold constants of tracker.js lines 13-17. -/
def MIN_DURATION_MS : Nat := 3000

/-- Dwell cap: 30 minutes (tracker.js line 14). -/
def MAX_DURATION_MS : Nat := 30 * 60 * 1000

/-- Lower content-worthiness bound: 60 seconds (tracker.js line 15). -/
def CONTENT_MIN_MS : Nat := 60 * 1000

/-- Upper content-worthiness bound: 30 minutes (tracker.js line 16). -/
def CONTENT_MAX_MS : Nat := 30 * 60 * 1000

/-- Minimum extracted text length (tracker.js line 17). -/
def MIN_TEXT_LENGTH : Nat := 200

/-- One entry of the per-domain dwell accumulator `pageTimeLog`
(tracker.js line 10). -/
structure PageTimeEntry where
  domain : String
  totalMs : Nat
  sessions : Nat
deriving Repr, DecidableEq

/-- Embedding of `accumulateTime` (tracker.js lines 136-145): a falsy
(empty) domain is not accumulated; otherwise the first entry for the
domain (found by `find`) is incremented in place, or a fresh entry is
pushed. -/
def accumulateTime (dom : String) (durationMs : Nat) : List PageTimeEntry → List PageTimeEntry
  | [] => [{ domain := dom, totalMs := durationMs, sessions := 1 }]
  | e :: rest =>
    if e.domain = dom then
      { e with totalMs := e.totalMs + durationMs, sessions := e.sessions + 1 } :: rest
    else
      e :: accumulateTime dom durationMs rest

/-- The guarded accumulator call of tracker.js lines 136-137
(`if (!domain) return`). -/
def accumulateTimeGuarded (dom : String) (durationMs : Nat) (log : List PageTimeEntry) :
    List PageTimeEntry :=
  if dom = "" then log else accumulateTime dom durationMs log

/-- The current page session (tracker.js line 9). -/
structure PageSession where
  url : String
  domain : String
  title : String
  startTime : Nat
  tabId : Nat
deriving Repr, DecidableEq

/-- A content-extraction request emitted while closing a session
(the `extractAndLog(tabId, url, title, duration)` call of tracker.js
lines 31 and 57). -/
structure ExtractRequest where
  tabId : Nat
  url : String
  title : String
  duration : Nat
deriving Repr, DecidableEq

/-- In-memory tracker state: current session and dwell accumulator
(tracker.js lines 9-10). -/
structure TrackerState where
  currentPage : Option PageSession
  pageTimeLog : List PageTimeEntry
deriving Repr, DecidableEq

/-- Session close-out (tracker.js lines 24-33 and 51-58): the duration is
`Math.min(now - startTime, MAX_DURATION_MS)`; it is folded into the dwell
accumulator when `duration >= MIN_DURATION_MS`, and a content-extraction
request is emitted when `CONTENT_MIN_MS <= duration <= CONTENT_MAX_MS`. -/
def closeSession (now : Nat) (p : PageSession) (log : List PageTimeEntry) :
    List PageTimeEntry × Option ExtractRequest :=
  let duration := Nat.min (now - p.startTime) MAX_DURATION_MS
  let log1 := if MIN_DURATION_MS ≤ duration then accumulateTimeGuarded p.domain duration log else log
  let ext := if CONTENT_MIN_MS ≤ duration ∧ duration ≤ CONTENT_MAX_MS then
      some { tabId := p.tabId, url := p.url, title := p.title, duration := duration }
    else none
  (log1, ext)

/-- Embedding of `trackPageChange` (tracker.js lines 20-47): closes the
current session (if any), then opens a new session exactly when the new
url is nonempty and passes the Privacy Filter (`shouldTrack`, passed in
as the function `tracked`). -/
def trackPageChange (tracked : String → Bool) (getDom : String → String)
    (now : Nat) (url title : String) (tabId : Nat) (s : TrackerState) :
    TrackerState × Option ExtractRequest :=
  let closed := match s.currentPage with
    | some p => closeSession now p s.pageTimeLog
    | none => (s.pageTimeLog, none)
  let newPage := if url ≠ "" ∧ tracked url then
      some { url := url, domain := getDom url, title := title, startTime := now, tabId := tabId }
    else none
  ({ currentPage := newPage, pageTimeLog := closed.1 }, closed.2)

/-- Embedding of `trackIdle` (tracker.js lines 50-61): same close-out,
no new session. -/
def trackIdle (now : Nat) (s : TrackerState) : TrackerState × Option ExtractRequest :=
  match s.currentPage with
  | some p =>
    let closed := closeSession now p s.pageTimeLog
    ({ currentPage := none, pageTimeLog := closed.1 }, closed.2)
  | none => (s, none)

/-! ## Content extraction and per-process dedup — tracker.js lines 69-114 -/

/-- The payload answered by the content script for an `extract_content`
message (content/extractor.js); `chrome.tabs.sendMessage` throwing (PDF,
internal page, no content script) is modelled as `none` at the call
site. -/
structure ExtractedContent where
  text : String
  metaTitle : String
deriving Repr, DecidableEq

/-- Embedding of `extractAndLog` (tracker.js lines 69-114) for one request:
given the in-memory set of already-sent urls (`sentUrls`, line 11) and the
content-script answer (`none` when `chrome.tabs.sendMessage` throws), it
returns the updated set together with the page-content entry stored via
`addPageContent`, if any.  Internal urls and urls failing the Privacy
Filter are skipped; the sanitized url is skipped when already sent; short
or missing text is skipped; otherwise the sanitized url is added to the
set and the entry is stored. -/
def extractAndLog (tracked : String → Bool) (parse : String → Option UrlParts)
    (now : Nat) (sent : List String) (url title : String) (timeSpent : Nat)
    (answer : Option ExtractedContent) : List String × Option PageEntry :=
  if url = "" ∨ url.startsWith "chrome://" ∨ url.startsWith "chrome-extension://" then
    (sent, none)
  else if ¬ tracked url then (sent, none)
  else
    let cleanUrl := sanitizeUrl parse url
    if cleanUrl ∈ sent then (sent, none)
    else
      match answer with
      | none => (sent, none)
      | some content =>
        if content.text.length < MIN_TEXT_LENGTH then (sent, none)
        else
          (cleanUrl :: sent,
           some { url := cleanUrl
                  title := if title = "" then content.metaTitle else title
                  timeSpent := timeSpent
                  content := content.text.take 2000
                  timestamp := now })

/-- One close-out within a process lifetime that reached `extractAndLog`:
the raw url and title of the closing session, its duration, and the
content-script answer for the tab. -/
structure ExtractCall where
  url : String
  title : String
  timeSpent : Nat
  answer : Option ExtractedContent
deriving Repr, DecidableEq

/-- A sequence of `extractAndLog` calls within one process lifetime,
threading the in-memory `sentUrls` set and collecting every page-content
entry that was stored. -/
def runExtractions (tracked : String → Bool) (parse : String → Option UrlParts)
    (now : Nat) : List String → List ExtractCall → List PageEntry
  | _, [] => []
  | sent, c :: rest =>
    let step := extractAndLog tracked parse now sent c.url c.title c.timeSpent c.answer
    match step.2 with
    | some e => e :: runExtractions tracked parse now step.1 rest
    | none => runExtractions tracked parse now step.1 rest

/-! ## Digest Builder — background/digest.js and service-worker.js -/

/-- A delivery result as returned by `sendDigest` / `postToLogger` /
`buildAndSendDigest` (an object with a `success` flag and a `reason`). -/
structure SendResult where
  success : Bool
  reason : String
deriving Repr, DecidableEq

/-- Observable outcome of one `buildAndSendDigest` call: the returned
result, the persisted last-digest-date marker and the dwell accumulator
after the call, whether the digest message was built (`formatDigest`
invoked), and which outbound sends were attempted. -/
structure DigestRun where
  result : SendResult
  lastDigestDate : Option String
  pageTimes : List PageTimeEntry
  built : Bool
  webhookAttempted : Bool
  loggerAttempted : Bool
deriving Repr, DecidableEq

/-- Embedding of `buildAndSendDigest` (digest.js lines 49-105).
`hasTargetDate` is whether an explicit `targetDate` argument was passed;
`todayKey` is `date.toISOString().split(T)[0]` for the target day;
`lastDigest` is the persisted `lastDigestDate` marker; `dayEvents` is
`getEventsForDay(date)`; `pageTimes` is the dwell accumulator.  The
results of the two outbound collaborators are inputs: `webhookResult` is
what `sendDigest` returns (it always returns a result object), and when
`loggerConfigured` is true the logger is also invoked and answers
`loggerResult`.  Guard (lines 56-59): marker equal and no explicit target
date returns `already_sent` untouched.  Zero events (lines 63-66) return
`no_events` untouched.  Otherwise the message is built and delivered, and
exactly when one of the attempted deliveries reports success (lines
99-102) the marker is set to `todayKey` and the accumulator is reset.
The returned value (line 104) is the webhook result, which is always
present. -/
def buildAndSendDigest (hasTargetDate : Bool) (todayKey : String)
    (lastDigest : Option String) (dayEvents : List StoredEvent)
    (pageTimes : List PageTimeEntry) (webhookResult : SendResult)
    (loggerConfigured : Bool) (loggerResult : SendResult) : DigestRun :=
  if lastDigest = some todayKey ∧ ¬ hasTargetDate then
    { result := { success := false, reason := "already_sent" }
      lastDigestDate := lastDigest
      pageTimes := pageTimes
      built := false
      webhookAttempted := false
      loggerAttempted := false }
  else if dayEvents = [] then
    { result := { success := false, reason := "no_events" }
      lastDigestDate := lastDigest
      pageTimes := pageTimes
      built := false
      webhookAttempted := false
      loggerAttempted := false }
  else
    let markSent := webhookResult.success || (loggerConfigured && loggerResult.success)
    { result := webhookResult
      lastDigestDate := if markSent then some todayKey else lastDigest
      pageTimes := if markSent then [] else pageTimes
      built := true
      webhookAttempted := true
      loggerAttempted := loggerConfigured }

/-- Embedding of the manual digest trigger (service-worker.js lines 96-97):
the `sendDigestNow` message handler calls `buildAndSendDigest()` with no
argument, so `targetDate` is absent. -/
def sendDigestNow (todayKey : String) (lastDigest : Option String)
    (dayEvents : List StoredEvent) (pageTimes : List PageTimeEntry)
    (webhookResult : SendResult) (loggerConfigured : Bool)
    (loggerResult : SendResult) : DigestRun :=
  buildAndSendDigest false todayKey lastDigest dayEvents pageTimes
    webhookResult loggerConfigured loggerResult

/-! ## Concrete fixtures used by witnesses and counterexamples -/

/-- A sample stored navigation event. -/
def sampleEvent : StoredEvent :=
  { t := 1760000000000, type := "navigation", url := "https://github.com/",
    domain := "github.com", cat := "dev", title := "GitHub" }

/-- A sample dwell-accumulator entry. -/
def samplePT : PageTimeEntry := { domain := "github.com", totalMs := 40000, sessions := 1 }

/-- Fresh store metadata. -/
def meta0 : StoreMeta := { totalEvents := 0, oldestEvent := none, newestEvent := none }

/-- Sum of the dwell time recorded for one domain in the accumulator. -/
def totalFor (dom : String) (log : List PageTimeEntry) : Nat :=
  ((log.filter (fun e => e.domain = dom)).map (fun e => e.totalMs)).sum

/-- Folding a duration into the accumulator adds exactly that duration to
the total recorded for the domain. -/
theorem totalFor_accumulateTime (dom : String) (ms : Nat) (log : List PageTimeEntry) :
    totalFor dom (accumulateTime dom ms log) = totalFor dom log + ms := by
  induction log with
  | nil => simp [accumulateTime, totalFor]
  | cons e rest ih =>
    by_cases h : e.domain = dom
    · simp [accumulateTime, totalFor, h]
      omega
    · simp only [accumulateTime, if_neg h]
      simp only [totalFor, List.filter_cons] at ih ⊢
      simp [h, ih]

/-- C1.  If a digest for day `d` was already delivered (the persisted
marker equals `d`) and `buildAndSendDigest` is called again for `d` with
no explicit override, it returns the already-sent result without building
the message, without attempting any delivery, and without resetting the
dwell accumulator or touching the marker; and in every call the marker is
set and the accumulator reset exactly when at least one attempted
outbound delivery reports success. -/
theorem C1_digest_idempotent :
    (∀ (todayKey : String) (dayEvents : List StoredEvent) (pageTimes : List PageTimeEntry)
       (w : SendResult) (lc : Bool) (lr : SendResult),
       (buildAndSendDigest false todayKey (some todayKey) dayEvents pageTimes w lc lr).result =
         { success := false, reason := "already_sent" } ∧
       (buildAndSendDigest false todayKey (some todayKey) dayEvents pageTimes w lc lr).built = false ∧
       (buildAndSendDigest false todayKey (some todayKey) dayEvents pageTimes w lc lr).webhookAttempted = false ∧
       (buildAndSendDigest false todayKey (some todayKey) dayEvents pageTimes w lc lr).loggerAttempted = false ∧
       (buildAndSendDigest false todayKey (some todayKey) dayEvents pageTimes w lc lr).pageTimes = pageTimes ∧
       (buildAndSendDigest false todayKey (some todayKey) dayEvents pageTimes w lc lr).lastDigestDate = some todayKey) ∧
    (∀ (hasTd : Bool) (todayKey : String) (lastDigest : Option String)
       (dayEvents : List StoredEvent) (pageTimes : List PageTimeEntry)
       (w : SendResult) (lc : Bool) (lr : SendResult),
       w.success = false → (lc && lr.success) = false →
       (buildAndSendDigest hasTd todayKey lastDigest dayEvents pageTimes w lc lr).lastDigestDate = lastDigest ∧
       (buildAndSendDigest hasTd todayKey lastDigest dayEvents pageTimes w lc lr).pageTimes = pageTimes) ∧
    (∀ (hasTd : Bool) (todayKey : String) (lastDigest : Option String)
       (dayEvents : List StoredEvent) (pageTimes : List PageTimeEntry)
       (w : SendResult) (lc : Bool) (lr : SendResult),
       ¬ (lastDigest = some todayKey ∧ ¬ hasTd = true) → dayEvents ≠ [] →
       (w.success || (lc && lr.success)) = true →
       (buildAndSendDigest hasTd todayKey lastDigest dayEvents pageTimes w lc lr).lastDigestDate = some todayKey ∧
       (buildAndSendDigest hasTd todayKey lastDigest dayEvents pageTimes w lc lr).pageTimes = []) := by
  refine ⟨?_, ?_, ?_⟩
  · intro todayKey dayEvents pageTimes w lc lr
    simp [buildAndSendDigest]
  · intro hasTd todayKey lastDigest dayEvents pageTimes w lc lr hw hl
    unfold buildAndSendDigest
    split
    · exact ⟨rfl, rfl⟩
    · split
      · exact ⟨rfl, rfl⟩
      · simp [hw, hl]
  · intro hasTd todayKey lastDigest dayEvents pageTimes w lc lr hguard hev hs
    unfold buildAndSendDigest
    rw [if_neg hguard, if_neg hev]
    simp [hs]

/-- Witness for C1 at concrete inputs. -/
theorem C1_digest_idempotent_witness :
    ((buildAndSendDigest false "2026-02-12" (some "2026-02-12") [sampleEvent] [samplePT]
        { success := true, reason := "" } false { success := false, reason := "" }).pageTimes = [samplePT]) ∧
    ((buildAndSendDigest false "2026-02-12" none [sampleEvent] [samplePT]
        { success := false, reason := "http_error" } false { success := false, reason := "" }).lastDigestDate = none) ∧
    ((buildAndSendDigest true "2026-02-12" (some "2026-02-12") [sampleEvent] [samplePT]
        { success := true, reason := "" } false { success := false, reason := "" }).lastDigestDate = some "2026-02-12") :=
  ⟨(C1_digest_idempotent.1 "2026-02-12" [sampleEvent] [samplePT]
      { success := true, reason := "" } false { success := false, reason := "" }).2.2.2.2.1,
   (C1_digest_idempotent.2.1 false "2026-02-12" none [sampleEvent] [samplePT]
      { success := false, reason := "http_error" } false { success := false, reason := "" } rfl rfl).1,
   (C1_digest_idempotent.2.2 true "2026-02-12" (some "2026-02-12") [sampleEvent] [samplePT]
      { success := true, reason := "" } false { success := false, reason := "" }
      (by simp) (by simp) rfl).1⟩

/-- C2 counterexample.  The manual on-demand trigger (`sendDigestNow`,
service-worker.js line 97) calls `buildAndSendDigest()` with no target
date, so when the persisted marker equals the target day it does NOT
rebuild and deliver: it returns the already-sent result with nothing
built and no delivery attempted — refuting the claim that the manual
build bypasses the already-sent guard. -/
theorem C2_manual_guard_counterexample :
    (sendDigestNow "2026-02-12" (some "2026-02-12") [sampleEvent] [samplePT]
        { success := true, reason := "" } false { success := false, reason := "" }).built = false ∧
    (sendDigestNow "2026-02-12" (some "2026-02-12") [sampleEvent] [samplePT]
        { success := true, reason := "" } false { success := false, reason := "" }).webhookAttempted = false ∧
    (sendDigestNow "2026-02-12" (some "2026-02-12") [sampleEvent] [samplePT]
        { success := true, reason := "" } false { success := false, reason := "" }).result =
      { success := false, reason := "already_sent" } := by
  refine ⟨?_, ?_, ?_⟩ <;> simp [sendDigestNow, buildAndSendDigest]

/-- C2 amended.  A `buildAndSendDigest` call with an explicit target date
bypasses the already-sent guard (it rebuilds and attempts delivery even
when the marker equals the target day), and the zero-events short-circuit
still applies (returning the no-events result without marking the day as
sent); but the manual `sendDigestNow` trigger passes no target date and is
therefore itself subject to the guard. -/
theorem C2_explicit_date_bypasses_guard :
    (∀ (todayKey : String) (dayEvents : List StoredEvent) (pageTimes : List PageTimeEntry)
       (w : SendResult) (lc : Bool) (lr : SendResult),
       dayEvents ≠ [] →
       (buildAndSendDigest true todayKey (some todayKey) dayEvents pageTimes w lc lr).built = true ∧
       (buildAndSendDigest true todayKey (some todayKey) dayEvents pageTimes w lc lr).webhookAttempted = true) ∧
    (∀ (todayKey : String) (lastDigest : Option String) (pageTimes : List PageTimeEntry)
       (w : SendResult) (lc : Bool) (lr : SendResult),
       (buildAndSendDigest true todayKey lastDigest [] pageTimes w lc lr).result =
         { success := false, reason := "no_events" } ∧
       (buildAndSendDigest true todayKey lastDigest [] pageTimes w lc lr).built = false ∧
       (buildAndSendDigest true todayKey lastDigest [] pageTimes w lc lr).webhookAttempted = false ∧
       (buildAndSendDigest true todayKey lastDigest [] pageTimes w lc lr).lastDigestDate = lastDigest) ∧
    (∀ (todayKey : String) (dayEvents : List StoredEvent) (pageTimes : List PageTimeEntry)
       (w : SendResult) (lc : Bool) (lr : SendResult),
       (sendDigestNow todayKey (some todayKey) dayEvents pageTimes w lc lr).result.reason =
         "already_sent" ∧
       (sendDigestNow todayKey (some todayKey) dayEvents pageTimes w lc lr).built = false) := by
  refine ⟨?_, ?_, ?_⟩
  · intro todayKey dayEvents pageTimes w lc lr hev
    unfold buildAndSendDigest
    rw [if_neg (by simp), if_neg hev]
    exact ⟨rfl, rfl⟩
  · intro todayKey lastDigest pageTimes w lc lr
    unfold buildAndSendDigest
    by_cases h : lastDigest = some todayKey ∧ ¬ (true : Bool) = true
    · simp at h
    · rw [if_neg h, if_pos rfl]
      exact ⟨rfl, rfl, rfl, rfl⟩
  · intro todayKey dayEvents pageTimes w lc lr
    simp [sendDigestNow, buildAndSendDigest]

/-- Witness for C2 amended at concrete inputs. -/
theorem C2_explicit_date_bypasses_guard_witness :
    (buildAndSendDigest true "2026-02-12" (some "2026-02-12") [sampleEvent] [samplePT]
        { success := true, reason := "" } false { success := false, reason := "" }).built = true :=
  (C2_explicit_date_bypasses_guard.1 "2026-02-12" [sampleEvent] [samplePT]
      { success := true, reason := "" } false { success := false, reason := "" } (by simp)).1

/-- A sample open session, started at time 0, used to exercise the
tracker close-out boundaries. -/
def c3Session : PageSession :=
  { url := "https://example.com/a", domain := "example.com", title := "A",
    startTime := 0, tabId := 1 }

/-- C3 code-bug evaluation.  Closing a session whose raw elapsed time is
`CONTENT_MAX_MS + 1` DOES emit a content-extraction request, because the
duration is first clamped to `MAX_DURATION_MS` (= `CONTENT_MAX_MS`) and
only then compared against the `[CONTENT_MIN_MS, CONTENT_MAX_MS]` window
(tracker.js lines 25, 30, 52, 56), so the upper bound can never exclude a
session — contradicting the claim and the code comment on tracker.js line
16 ("Skip if greater than 30 min").  The lower boundary half of the claim
does hold: a session of exactly `CONTENT_MIN_MS` triggers extraction. -/
theorem C3_content_upper_bound_dead :
    (trackIdle (CONTENT_MAX_MS + 1) { currentPage := some c3Session, pageTimeLog := [] }).2 =
      some { tabId := 1, url := "https://example.com/a", title := "A",
             duration := CONTENT_MAX_MS } ∧
    (trackIdle CONTENT_MIN_MS { currentPage := some c3Session, pageTimeLog := [] }).2 =
      some { tabId := 1, url := "https://example.com/a", title := "A",
             duration := CONTENT_MIN_MS } := by
  constructor <;> rfl

/-- C4.  Closing a session computes the duration as the elapsed time
clamped above by `MAX_DURATION_MS` (and below by 0, via truncated
subtraction), folds it into the per-domain dwell accumulator exactly when
it reaches `MIN_DURATION_MS`: a session below the minimum contributes
nothing to the accumulator, a session whose clamped duration reaches the
minimum adds exactly that duration to its domain total, and a session
above the maximum adds exactly `MAX_DURATION_MS`. -/
theorem C4_dwell_clamping :
    (∀ (now : Nat) (p : PageSession) (log : List PageTimeEntry),
       now - p.startTime < MIN_DURATION_MS →
       (closeSession now p log).1 = log) ∧
    (∀ (now : Nat) (p : PageSession) (log : List PageTimeEntry),
       p.domain ≠ "" →
       MIN_DURATION_MS ≤ Nat.min (now - p.startTime) MAX_DURATION_MS →
       totalFor p.domain (closeSession now p log).1 =
         totalFor p.domain log + Nat.min (now - p.startTime) MAX_DURATION_MS) ∧
    (∀ (now : Nat) (p : PageSession) (log : List PageTimeEntry),
       p.domain ≠ "" →
       MAX_DURATION_MS < now - p.startTime →
       totalFor p.domain (closeSession now p log).1 =
         totalFor p.domain log + MAX_DURATION_MS) := by
  have key : ∀ (now : Nat) (p : PageSession) (log : List PageTimeEntry),
      p.domain ≠ "" →
      MIN_DURATION_MS ≤ Nat.min (now - p.startTime) MAX_DURATION_MS →
      totalFor p.domain (closeSession now p log).1 =
        totalFor p.domain log + Nat.min (now - p.startTime) MAX_DURATION_MS := by
    intro now p log hdom hmin
    unfold closeSession
    simp only [if_pos hmin]
    rw [accumulateTimeGuarded, if_neg hdom]
    exact totalFor_accumulateTime p.domain _ log
  refine ⟨?_, key, ?_⟩
  · intro now p log hlt
    have hmin : Nat.min (now - p.startTime) MAX_DURATION_MS < MIN_DURATION_MS :=
      lt_of_le_of_lt (Nat.min_le_left _ _) hlt
    unfold closeSession
    simp only [if_neg (Nat.not_le.mpr hmin)]
  · intro now p log hdom hgt
    have hmin : Nat.min (now - p.startTime) MAX_DURATION_MS = MAX_DURATION_MS :=
      Nat.min_eq_right (le_of_lt hgt)
    have := key now p log hdom (by rw [hmin]; decide)
    rwa [hmin] at this

/-- Witness for C4 at concrete inputs: a 2-second session contributes
nothing, a 40-second session contributes exactly 40000 ms, and a
31-minute session contributes exactly the 30-minute cap. -/
theorem C4_dwell_clamping_witness :
    (closeSession 2000 c3Session []).1 = [] ∧
    totalFor "example.com" (closeSession 40000 c3Session []).1 =
      totalFor "example.com" [] + 40000 ∧
    totalFor "example.com" (closeSession (31 * 60 * 1000) c3Session []).1 =
      totalFor "example.com" [] + MAX_DURATION_MS :=
  ⟨C4_dwell_clamping.1 2000 c3Session [] (by decide),
   by
     have := C4_dwell_clamping.2.1 40000 c3Session [] (by decide) (by decide)
     simpa using this,
   C4_dwell_clamping.2.2 (31 * 60 * 1000) c3Session [] (by decide) (by decide)⟩

/-- The retained log of `enforceRetention` is exactly the filter keeping
events strictly newer than the cutoff. -/
theorem enforceRetention_fst (now : Nat) (log : List StoredEvent) (meta : StoreMeta) :
    (enforceRetention now log meta).1 =
      log.filter (fun e => decide (retentionCutoff now < e.t)) := by
  simp only [enforceRetention]
  split <;> rfl

/-- Retained events all lie strictly inside the retention window. -/
theorem mem_enforceRetention {now : Nat} {log : List StoredEvent} {meta : StoreMeta}
    {e : StoredEvent} (h : e ∈ (enforceRetention now log meta).1) :
    retentionCutoff now < e.t := by
  rw [enforceRetention_fst] at h
  simpa using (List.mem_filter.mp h).2

/-- C5.  After `enforceRetention` runs, every event remaining in the log —
and hence every event returned by a day query over it — is strictly newer
than the retention cutoff, so no event older than the 90-day window
survives and an event exactly at the boundary is always excluded; and
every log that `persistStore` ever writes to durable storage (retention
runs before the write, including the quota-recovery rewrite) satisfies
the same bound. -/
theorem C5_retention_window :
    (∀ (now : Nat) (log : List StoredEvent) (meta : StoreMeta) (e : StoredEvent),
       e ∈ (enforceRetention now log meta).1 → retentionCutoff now < e.t) ∧
    (∀ (now : Nat) (log : List StoredEvent) (meta : StoreMeta) (e : StoredEvent),
       e ∈ (enforceRetention now log meta).1 → e.t ≠ retentionCutoff now) ∧
    (∀ (now dayStart : Nat) (log : List StoredEvent) (meta : StoreMeta) (e : StoredEvent),
       e ∈ getEventsForDay dayStart (enforceRetention now log meta).1 →
       retentionCutoff now < e.t) ∧
    (∀ (set : List StoredEvent → SetOutcome) (log : List StoredEvent) (meta : StoreMeta)
       (now : Nat) (written : List StoredEvent) (e : StoredEvent),
       (persistStore set log meta now).written = some written → e ∈ written →
       retentionCutoff now < e.t) := by
  refine ⟨fun _ _ _ _ h => mem_enforceRetention h,
          fun _ _ _ _ h => Nat.ne_of_gt (mem_enforceRetention h),
          fun now dayStart log meta e h => ?_, ?_⟩
  · exact mem_enforceRetention (List.mem_filter.mp h).1
  · intro set log meta now written e hw he
    simp only [persistStore] at hw
    split at hw
    · injection hw with hw
      subst hw
      exact mem_enforceRetention he
    · split at hw
      · injection hw with hw
        subst hw
        exact mem_enforceRetention (List.mem_of_mem_drop he)
      · exact absurd hw (by simp)
    · exact absurd hw (by simp)

/-- Witness for C5 at a concrete input: a fresh event survives retention
and its timestamp is strictly newer than the cutoff. -/
theorem C5_retention_window_witness :
    retentionCutoff 1760000000001 < sampleEvent.t :=
  C5_retention_window.1 1760000000001 [sampleEvent] meta0 sampleEvent (by decide)

/-- A storage-write model that rejects with a quota error exactly when
more than 1000 events are written, used to exercise the quota-recovery
path of `persistStore`. -/
def quotaSet (l : List StoredEvent) : SetOutcome :=
  if 1000 < l.length then SetOutcome.quotaError else SetOutcome.ok

/-- An event new enough that retention keeps it for any current time up to
its own timestamp. -/
def freshEvent : StoredEvent :=
  { t := 1, type := "tab.activated", url := "https://github.com/",
    domain := "github.com", cat := "dev", title := "" }

/-- C7.  When the first durable write fails with a storage-quota error and
the retry of the truncated log succeeds, `persistStore` truncates the
in-memory log to the most recent 1000 events, performs exactly that one
retry write successfully, and no failure escapes to the caller; on a log
of more than 1000 retained events the resulting log holds exactly 1000
entries. -/
theorem C7_quota_recovery :
    ∀ (set : List StoredEvent → SetOutcome) (log : List StoredEvent) (meta : StoreMeta)
      (now : Nat),
      set (enforceRetention now log meta).1 = SetOutcome.quotaError →
      set (jsSliceLast 1000 (enforceRetention now log meta).1) = SetOutcome.ok →
      1000 < (enforceRetention now log meta).1.length →
      (persistStore set log meta now).threw = false ∧
      (persistStore set log meta now).memLog = jsSliceLast 1000 (enforceRetention now log meta).1 ∧
      (persistStore set log meta now).written =
        some (jsSliceLast 1000 (enforceRetention now log meta).1) ∧
      (persistStore set log meta now).memLog.length = 1000 := by
  intro set log meta now hq hr hlen
  simp only [persistStore]
  rw [hq, hr]
  dsimp only
  refine ⟨rfl, rfl, rfl, ?_⟩
  unfold jsSliceLast
  rw [List.length_drop]
  omega

/-- Witness for C7: a log of 1001 fresh events hits the quota model, and
the retry persists exactly the most recent 1000. -/
theorem C7_quota_recovery_witness :
    (persistStore quotaSet (List.replicate 1001 freshEvent) meta0 0).threw = false ∧
    (persistStore quotaSet (List.replicate 1001 freshEvent) meta0 0).memLog.length = 1000 := by
  have hkeep : (enforceRetention 0 (List.replicate 1001 freshEvent) meta0).1 =
      List.replicate 1001 freshEvent := by
    rw [enforceRetention_fst, List.filter_replicate_of_pos (by decide)]
  have hlen : (List.replicate 1001 freshEvent).length = 1001 := List.length_replicate 1001 _
  have hq : quotaSet (List.replicate 1001 freshEvent) = SetOutcome.quotaError := by
    rw [quotaSet, if_pos (by rw [hlen]; omega)]
  have hr : quotaSet (jsSliceLast 1000 (List.replicate 1001 freshEvent)) = SetOutcome.ok := by
    have : (jsSliceLast 1000 (List.replicate 1001 freshEvent)).length = 1000 := by
      rw [jsSliceLast, List.length_drop, hlen]
    rw [quotaSet, if_neg (by rw [this]; omega)]
  have h := C7_quota_recovery quotaSet (List.replicate 1001 freshEvent) meta0 0
    (by rw [hkeep]; exact hq)
    (by rw [hkeep]; exact hr)
    (by rw [hkeep, hlen]; omega)
  exact ⟨h.1, h.2.2.2⟩

/-- A stored page-content entry used to exercise `clearStore`. -/
def c8Entry : PageEntry :=
  { url := "https://techcrunch.com/2026/02/12/openai-robotics", title := "OpenAI enters robotics",
    timeSpent := 720000, content := "OpenAI announced today...", timestamp := 1760000000000 }

/-- A populated durable-storage state: one persisted event-log blob, its
metadata blob, and one per-day page-content blob. -/
def c8Data : LocalData :=
  { storedLog := some [sampleEvent]
    storedMeta := some { totalEvents := 1, oldestEvent := some 1760000000000,
                         newestEvent := some 1760000000000 }
    contentByDay := [("content_2026-02-12", [c8Entry])] }

/-- C8 code-bug evaluation.  `clearStore` (store.js lines 450-454) resets
the in-memory log and metadata and removes only the `eventLog` and
`storeMeta` keys from durable storage: the per-day page-content blobs
(`content_YYYY-MM-DD`) survive, and `getPageContent` still returns the
stored entry after the clear — contradicting the claim (and the README,
which says the clear-all operation clears everything).  The retention
half of the claim does hold on this input: `enforceRetention` keeps an
in-window event rather than emptying the store wholesale, and by
`C5_retention_window` it only ever drops events at or beyond the
cutoff. -/
theorem C8_clear_leaves_page_content :
    (clearStore c8Data).1 = ([], { totalEvents := 0, oldestEvent := none, newestEvent := none }) ∧
    (clearStore c8Data).2.storedLog = none ∧
    (clearStore c8Data).2.storedMeta = none ∧
    (clearStore c8Data).2.contentByDay = [("content_2026-02-12", [c8Entry])] ∧
    getPageContent (clearStore c8Data).2 "2026-02-12" = [c8Entry] ∧
    (enforceRetention 1760000000001 [sampleEvent] meta0).1 = [sampleEvent] := by
  refine ⟨rfl, rfl, rfl, rfl, ?_, by decide⟩
  simp [clearStore, getPageContent, c8Data]

/-- An input string on which the platform URL parser fails and which
carries a query-string-looking secret. -/
def badUrl : String := "::bad?token=secret"

/-- C9 counterexample.  On a parse failure `sanitizeUrl` returns the raw
input unchanged (privacy.js line 78), not an absent/empty value, and
`recordEvent` persists exactly that raw string in the stored event url
field — refuting the claim that the sanitized value is absent/empty and
that no raw unsanitized URL is ever persisted. -/
theorem C9_raw_url_persisted_counterexample :
    sanitizeUrl parseFail badUrl = badUrl ∧
    badUrl ≠ "" ∧
    (recordEvent parseFail (fun _ => "other") 1760000000000 "navigation" badUrl "" [] meta0).1 =
      [{ t := 1760000000000, type := "navigation", url := badUrl, domain := "",
         cat := "other", title := "" }] := by
  refine ⟨by decide, by decide, by decide⟩

/-- C9 amended.  For every input string on which URL parsing fails, the
Privacy Filter proceeds without failing: `getDomain` returns the empty
string, but `sanitizeUrl` returns the raw input unchanged (rather than an
absent/empty value), and `recordEvent` persists that raw string as the
stored event url (with an empty domain). -/
theorem C9_parse_failure_behaviour :
    ∀ (parse : String → Option UrlParts) (categorize : String → String)
      (now : Nat) (evType url title : String) (log : List StoredEvent) (meta : StoreMeta),
      parse url = none → url ≠ "" →
      getDomain parse url = "" ∧
      sanitizeUrl parse url = url ∧
      (recordEvent parse categorize now evType url title log meta).1 =
        log ++ [{ t := now, type := evType, url := url, domain := "",
                  cat := categorize "", title := title.take 200 }] := by
  intro parse categorize now evType url title log meta hparse hne
  have hdom : getDomain parse url = "" := by rw [getDomain, hparse]
  have hsan : sanitizeUrl parse url = url := by
    rw [sanitizeUrl, if_neg hne, hparse]
  refine ⟨hdom, hsan, ?_⟩
  simp only [recordEvent, hsan, hdom]

/-- Witness for C9 amended at the concrete failing input. -/
theorem C9_parse_failure_behaviour_witness :
    getDomain parseFail badUrl = "" ∧ sanitizeUrl parseFail badUrl = badUrl :=
  let h := C9_parse_failure_behaviour parseFail (fun _ => "other") 1760000000000
    "navigation" badUrl "" [] meta0 rfl (by decide)
  ⟨h.1, h.2.1⟩

/-- Number of stored page-content entries carrying a given url. -/
def countFor (u : String) (l : List PageEntry) : Nat :=
  (l.filter (fun e => e.url = u)).length

theorem countFor_cons (u : String) (e : PageEntry) (l : List PageEntry) :
    countFor u (e :: l) = (if e.url = u then 1 else 0) + countFor u l := by
  by_cases h : e.url = u
  · simp [countFor, List.filter_cons, h]
    omega
  · simp [countFor, List.filter_cons, h]

/-- One `extractAndLog` call either stores nothing and leaves the sent set
unchanged, or stores one entry whose url was not yet in the set and is
added to it. -/
theorem extractAndLog_cases (tracked : String → Bool) (parse : String → Option UrlParts)
    (now : Nat) (sent : List String) (url title : String) (ts : Nat)
    (ans : Option ExtractedContent) :
    ((extractAndLog tracked parse now sent url title ts ans).2 = none ∧
     (extractAndLog tracked parse now sent url title ts ans).1 = sent) ∨
    (∃ e, (extractAndLog tracked parse now sent url title ts ans).2 = some e ∧
      (extractAndLog tracked parse now sent url title ts ans).1 = e.url :: sent ∧
      e.url ∉ sent) := by
  by_cases h1 : url = "" ∨ url.startsWith "chrome://" ∨ url.startsWith "chrome-extension://"
  · left
    constructor <;> simp [extractAndLog, h1]
  by_cases h2 : tracked url
  · by_cases h3 : sanitizeUrl parse url ∈ sent
    · left
      constructor <;> simp [extractAndLog, h1, h2, h3]
    · cases ans with
      | none =>
        left
        constructor <;> simp [extractAndLog, h1, h2, h3]
      | some c =>
        by_cases h4 : c.text.length < MIN_TEXT_LENGTH
        · left
          constructor <;> simp [extractAndLog, h1, h2, h3, h4]
        · right
          refine ⟨{ url := sanitizeUrl parse url
                    title := if title = "" then c.metaTitle else title
                    timeSpent := ts
                    content := c.text.take 2000
                    timestamp := now }, ?_, ?_, h3⟩ <;>
            simp [extractAndLog, h1, h2, h3, h4]
  · left
    constructor <;> simp [extractAndLog, h1, h2]

/-- Once a url is in the sent set, no later call in the same process
lifetime stores an entry for it. -/
theorem runExtractions_sent_zero (tracked : String → Bool) (parse : String → Option UrlParts)
    (now : Nat) :
    ∀ (calls : List ExtractCall) (sent : List String) (u : String),
      u ∈ sent → countFor u (runExtractions tracked parse now sent calls) = 0 := by
  intro calls
  induction calls with
  | nil => intro sent u _; rfl
  | cons c rest ih =>
    intro sent u hu
    rcases extractAndLog_cases tracked parse now sent c.url c.title c.timeSpent c.answer with
      ⟨hnone, hst⟩ | ⟨e, hsome, hst, hnotin⟩
    · rw [runExtractions, hnone]
      rw [hst]
      exact ih sent u hu
    · rw [runExtractions, hsome, hst, countFor_cons]
      rw [if_neg (fun (h : e.url = u) => hnotin (h.symm ▸ hu)),
          ih (e.url :: sent) u (List.mem_cons_of_mem _ hu)]

/-- C10.  Within one process lifetime, any sequence of session close-outs
stores at most one page-content entry per url: the in-memory `sentUrls`
set is consulted before extraction and extended exactly when an entry is
stored, so `runExtractions` starting from the empty set never stores two
entries with the same url. -/
theorem C10_per_url_dedup :
    ∀ (tracked : String → Bool) (parse : String → Option UrlParts) (now : Nat)
      (calls : List ExtractCall) (u : String),
      countFor u (runExtractions tracked parse now [] calls) ≤ 1 := by
  intro tracked parse now calls u
  suffices h : ∀ (sent : List String),
      countFor u (runExtractions tracked parse now sent calls) ≤ 1 from h []
  induction calls with
  | nil => intro sent; simp [runExtractions, countFor]
  | cons c rest ih =>
    intro sent
    rcases extractAndLog_cases tracked parse now sent c.url c.title c.timeSpent c.answer with
      ⟨hnone, hst⟩ | ⟨e, hsome, hst, _⟩
    · rw [runExtractions, hnone, hst]
      exact ih sent
    · rw [runExtractions, hsome, hst, countFor_cons]
      by_cases he : e.url = u
      · rw [if_pos he,
            runExtractions_sent_zero tracked parse now rest (e.url :: sent) u
              (by rw [he]; exact List.mem_cons_self u sent)]
      · rw [if_neg he]
        simpa using ih (e.url :: sent)

/-! ## Ordering lemmas for the page-content side table -/

/-- Two page-content entries have distinct urls. -/
def urlNe (a b : PageEntry) : Prop := a.url ≠ b.url

/-- Descending order on recorded dwell time. -/
def timeGe (a b : PageEntry) : Prop := b.timeSpent ≤ a.timeSpent

theorem urlNe_symmetric : Symmetric urlNe := fun _ _ h => Ne.symm h

theorem insertByTime_perm (x : PageEntry) (l : List PageEntry) :
    List.Perm (insertByTime x l) (x :: l) := by
  induction l with
  | nil => rfl
  | cons y ys ih =>
    rw [insertByTime]
    split
    · rfl
    · exact (List.Perm.cons y ih).trans (List.Perm.swap x y ys)

theorem sortByTimeDesc_perm (l : List PageEntry) : List.Perm (sortByTimeDesc l) l := by
  induction l with
  | nil => rfl
  | cons a l ih =>
    exact (insertByTime_perm a (sortByTimeDesc l)).trans (List.Perm.cons a ih)

theorem insertByTime_sorted {x : PageEntry} {l : List PageEntry}
    (h : l.Pairwise timeGe) : (insertByTime x l).Pairwise timeGe := by
  induction l with
  | nil => simp [insertByTime, List.pairwise_cons]
  | cons y ys ih =>
    rw [List.pairwise_cons] at h
    rw [insertByTime]
    split
    · rename_i hlt
      rw [List.pairwise_cons]
      refine ⟨?_, List.pairwise_cons.mpr h⟩
      intro z hz
      rcases List.mem_cons.mp hz with hz | hz
      · subst hz
        exact Nat.le_of_lt hlt
      · exact Nat.le_trans (h.1 z hz) (Nat.le_of_lt hlt)
    · rename_i hnlt
      rw [List.pairwise_cons]
      refine ⟨?_, ih h.2⟩
      intro z hz
      rcases List.mem_cons.mp ((insertByTime_perm x ys).mem_iff.mp hz) with hz | hz
      · subst hz
        exact Nat.le_of_not_lt hnlt
      · exact h.1 z hz

theorem sortByTimeDesc_sorted (l : List PageEntry) :
    (sortByTimeDesc l).Pairwise timeGe := by
  induction l with
  | nil => exact List.Pairwise.nil
  | cons a l ih => exact insertByTime_sorted ih

/-- Elements of the deduped list come from the incoming entry or the
existing list. -/
theorem mem_dedupByUrl {entry z : PageEntry} {l : List PageEntry}
    (h : z ∈ dedupByUrl entry l) : z = entry ∨ z ∈ l := by
  induction l with
  | nil => simpa [dedupByUrl] using h
  | cons e rest ih =>
    rw [dedupByUrl] at h
    split at h
    · split at h
      · rcases List.mem_cons.mp h with hz | hz
        · exact Or.inl hz
        · exact Or.inr (List.mem_cons_of_mem e hz)
      · exact Or.inr h
    · rcases List.mem_cons.mp h with hz | hz
      · exact Or.inr (hz ▸ List.mem_cons_self e rest)
      · rcases ih hz with hz | hz
        · exact Or.inl hz
        · exact Or.inr (List.mem_cons_of_mem e hz)

/-- The dedup step preserves uniqueness of urls. -/
theorem dedupByUrl_pairwise {entry : PageEntry} {l : List PageEntry}
    (h : l.Pairwise urlNe) : (dedupByUrl entry l).Pairwise urlNe := by
  induction l with
  | nil => simp [dedupByUrl, List.pairwise_cons]
  | cons e rest ih =>
    rw [List.pairwise_cons] at h
    rw [dedupByUrl]
    split
    · rename_i hurl
      split
      · rw [List.pairwise_cons]
        exact ⟨fun z hz hc => h.1 z hz (hurl.trans hc), h.2⟩
      · exact List.pairwise_cons.mpr h
    · rename_i hurl
      rw [List.pairwise_cons]
      refine ⟨?_, ih h.2⟩
      intro z hz
      rcases mem_dedupByUrl hz with hz | hz
      · subst hz
        exact hurl
      · exact h.1 z hz

/-- When the first entry matching the incoming url did not spend strictly
less time, the dedup step keeps the stored list unchanged (the stored
entry is not replaced and nothing is appended). -/
theorem dedupByUrl_keep {entry e0 : PageEntry} (l₁ l₂ : List PageEntry)
    (hfar : ∀ e ∈ l₁, e.url ≠ entry.url) (hurl : e0.url = entry.url)
    (hle : entry.timeSpent ≤ e0.timeSpent) :
    dedupByUrl entry (l₁ ++ e0 :: l₂) = l₁ ++ e0 :: l₂ := by
  induction l₁ with
  | nil =>
    simp only [List.nil_append, dedupByUrl, if_pos hurl]
    rw [if_neg (Nat.not_lt.mpr hle)]
  | cons a as ih =>
    have ha : ¬ a.url = entry.url := hfar a (List.mem_cons_self a as)
    simp only [List.cons_append, dedupByUrl, if_neg ha, List.append_eq]
    rw [ih (fun e he => hfar e (List.mem_cons_of_mem a he))]

/-- When the incoming entry spent strictly more time than the first entry
matching its url, the dedup step replaces exactly that stored entry. -/
theorem dedupByUrl_replace {entry e0 : PageEntry} (l₁ l₂ : List PageEntry)
    (hfar : ∀ e ∈ l₁, e.url ≠ entry.url) (hurl : e0.url = entry.url)
    (hlt : e0.timeSpent < entry.timeSpent) :
    dedupByUrl entry (l₁ ++ e0 :: l₂) = l₁ ++ entry :: l₂ := by
  induction l₁ with
  | nil =>
    simp only [List.nil_append, dedupByUrl, if_pos hurl]
    rw [if_pos hlt]
  | cons a as ih =>
    have ha : ¬ a.url = entry.url := hfar a (List.mem_cons_self a as)
    simp only [List.cons_append, dedupByUrl, if_neg ha, List.append_eq]
    rw [ih (fun e he => hfar e (List.mem_cons_of_mem a he))]

/-- In a pairwise-related list, every kept element (the `take`) is related
to every dropped element (the `drop`). -/
theorem pairwise_take_drop {r : PageEntry → PageEntry → Prop} {l : List PageEntry}
    (h : l.Pairwise r) (n : Nat) :
    ∀ a ∈ l.take n, ∀ b ∈ l.drop n, r a b := by
  rw [← List.take_append_drop n l] at h
  exact (List.pairwise_append.mp h).2.2

/-- The i-th of 60 distinct-url page-content entries, with pairwise
distinct dwell times `i + 1`. -/
def pageEntryAt (i : Nat) : PageEntry :=
  { url := "u" ++ toString i, title := "", timeSpent := i + 1, content := "", timestamp := 0 }

/-- Sixty distinct-url entries inserted one by one into an initially
empty day via `addPageContent`. -/
def insert60 : List PageEntry :=
  ((List.range 60).map pageEntryAt).foldl addPageContent []

/-- C6.  `addPageContent` keeps at most one entry per url (uniqueness of
urls is preserved); on a repeated url the stored entry is replaced
exactly when the incoming entry spent strictly more time (otherwise the
stored list is kept unchanged before sorting and capping); after every
insertion the stored day is sorted by `timeSpent` descending, holds at
most 50 entries, and every kept entry dominates every entry the cap
dropped; and inserting 60 distinct-url entries with dwell times 1..60
into an empty day retains exactly the 50 entries with the largest dwell
times (60 down to 11). -/
theorem C6_page_content_dedup_and_cap :
    (∀ (existing : List PageEntry) (entry : PageEntry),
       existing.Pairwise urlNe → (addPageContent existing entry).Pairwise urlNe) ∧
    (∀ (entry e0 : PageEntry) (l₁ l₂ : List PageEntry),
       (∀ e ∈ l₁, e.url ≠ entry.url) → e0.url = entry.url →
       (entry.timeSpent ≤ e0.timeSpent →
          addPageContent (l₁ ++ e0 :: l₂) entry = (sortByTimeDesc (l₁ ++ e0 :: l₂)).take 50) ∧
       (e0.timeSpent < entry.timeSpent →
          addPageContent (l₁ ++ e0 :: l₂) entry = (sortByTimeDesc (l₁ ++ entry :: l₂)).take 50)) ∧
    (∀ (existing : List PageEntry) (entry : PageEntry),
       (addPageContent existing entry).Pairwise timeGe ∧
       (addPageContent existing entry).length ≤ 50 ∧
       (∀ a ∈ addPageContent existing entry,
          ∀ b ∈ (sortByTimeDesc (dedupByUrl entry existing)).drop 50,
          b.timeSpent ≤ a.timeSpent)) ∧
    (insert60.length = 50 ∧
     insert60.map (fun e => e.timeSpent) = (List.range 50).map (fun i => 60 - i)) := by
  refine ⟨?_, ?_, ?_, by decide⟩
  · intro existing entry h
    exact ((sortByTimeDesc_perm (dedupByUrl entry existing)).pairwise_iff
        (fun hab => urlNe_symmetric hab) |>.mpr
        (dedupByUrl_pairwise h)).sublist (List.take_sublist 50 _)
  · intro entry e0 l₁ l₂ hfar hurl
    constructor
    · intro hle
      rw [addPageContent, dedupByUrl_keep l₁ l₂ hfar hurl hle]
    · intro hlt
      rw [addPageContent, dedupByUrl_replace l₁ l₂ hfar hurl hlt]
  · intro existing entry
    refine ⟨(sortByTimeDesc_sorted (dedupByUrl entry existing)).sublist (List.take_sublist 50 _),
            ?_, ?_⟩
    · simp [addPageContent]
    · exact pairwise_take_drop (sortByTimeDesc_sorted (dedupByUrl entry existing)) 50

/-- A stored page-content entry and a later, longer visit to the same
url, used to exercise the replacement rule. -/
def pe1 : PageEntry :=
  { url := "https://example.com/article", title := "A", timeSpent := 30000,
    content := "", timestamp := 0 }

/-- The later visit: same url, strictly larger dwell time. -/
def pe2 : PageEntry :=
  { url := "https://example.com/article", title := "A", timeSpent := 90000,
    content := "", timestamp := 0 }

/-- Witness for C6 at concrete inputs: uniqueness after inserting into a
singleton day, the no-replace rule for a shorter revisit, the replace
rule for a longer revisit, and the sortedness and cap bound. -/
theorem C6_page_content_dedup_and_cap_witness :
    (addPageContent [pe1] pe2).Pairwise urlNe ∧
    addPageContent [pe2] pe1 = (sortByTimeDesc [pe2]).take 50 ∧
    addPageContent [pe1] pe2 = (sortByTimeDesc [pe2]).take 50 ∧
    (addPageContent [pe1] pe2).length ≤ 50 :=
  ⟨C6_page_content_dedup_and_cap.1 [pe1] pe2 (List.pairwise_singleton urlNe pe1),
   (C6_page_content_dedup_and_cap.2.1 pe1 pe2 [] [] (by simp) rfl).1 (by decide),
   (C6_page_content_dedup_and_cap.2.1 pe2 pe1 [] [] (by simp) rfl).2 (by decide),
   (C6_page_content_dedup_and_cap.2.2.1 [pe1] pe2).2.1⟩

end StarkChrome
